import Mathlib

/-!
Verification of the biker-buddy route-detour analysis engine.

The definitions below are a shallow embedding of the Python sources
`src/route_agent.py` and `src/orchestrator.py`:

* floating-point numbers computed by trigonometric code are modelled as `ℝ`;
* JSON-borne numbers that the orchestrator filters merely compare are modelled
  as `ℚ`, so that those filters stay executable;
* Python dicts with a fixed key set become structures; optional keys become
  `Option`; insertion-ordered tag dicts become association lists;
* file and network I/O is factored out: functions that consume the geographic
  data service take the already-parsed responses as arguments.
-/

open Real

-- Real-number comparisons and membership tests inside the geometry code are
-- decided classically (the source compares floating-point values).  The
-- classical instance has low priority, so the executable orchestrator
-- definitions below still get their computable instances.
open Classical

/-! ## String helpers (Python `in`, `startswith`, `lower`) -/

/-- Python's substring test `pat in s`, on character lists:
true iff `pat` occurs as a contiguous run inside `l`. -/
def charSub (pat : List Char) : List Char → Bool
  | [] => pat.isEmpty
  | c :: t => pat.isPrefixOf (c :: t) || charSub pat t

/-- Python's `pat in s` for strings (substring containment). -/
def pyIn (pat s : String) : Bool :=
  charSub pat.toList s.toList

/-- Python's `s.startswith(pre)`.  (Structural recursion over the character
list, so that concrete instances evaluate inside the kernel; Lean's built-in
`String.startsWith` is semantically identical but does not reduce.) -/
def pyStartsWith (s pre : String) : Bool :=
  pre.toList.isPrefixOf s.toList

/-- Python's `s.lower()` (ASCII case folding, which covers every string the
orchestrator compares).  Structural recursion, as for `pyStartsWith`. -/
def pyLower (s : String) : String :=
  ⟨s.toList.map Char.toLower⟩

/-! ## `route_agent.py`: geometry -/

/-- A latitude/longitude pair in degrees, as used by `RouteAnalysisAgent`
after the GeoJSON `[lon, lat] → (lat, lon)` conversion. -/
abbrev Coord := ℝ × ℝ

/-- Python `math.radians`. -/
noncomputable def radians (x : ℝ) : ℝ := x * (Real.pi / 180)

/-- `RouteAnalysisAgent.haversine_distance`: great-circle distance between two
points in kilometres (`src/route_agent.py` lines 94-111).  Python's `math.asin`
raises outside `[-1, 1]`; `Real.arcsin` instead clamps, which can only differ
on inputs where Python would raise (symmetrically in the two arguments). -/
noncomputable def haversine_distance (coord1 coord2 : Coord) : ℝ :=
  let lat1 := radians coord1.1
  let lon1 := radians coord1.2
  let lat2 := radians coord2.1
  let lon2 := radians coord2.2
  let dlat := lat2 - lat1
  let dlon := lon2 - lon1
  let a := Real.sin (dlat / 2) ^ 2 +
    Real.cos lat1 * Real.cos lat2 * Real.sin (dlon / 2) ^ 2
  let c := 2 * Real.arcsin (Real.sqrt a)
  c * 6371

/-- The distance-gated greedy pass of `sample_route_coordinates`
(`src/route_agent.py` lines 79-86): walk the remaining coordinates, appending
a coordinate exactly when its haversine distance (in metres) from the last
appended one reaches `sample_distance_m`.  `last` is `sampled[-1]`. -/
noncomputable def sampleAux (sample_distance_m : ℝ) (last : Coord) :
    List Coord → List Coord
  | [] => []
  | c :: rest =>
    if haversine_distance last c * 1000 ≥ sample_distance_m then
      c :: sampleAux sample_distance_m c rest
    else
      sampleAux sample_distance_m last rest

/-- `RouteAnalysisAgent.sample_route_coordinates`
(`src/route_agent.py` lines 69-92): start with the first coordinate, run the
distance-gated pass, then append the final coordinate unless its value already
occurs among the sampled ones (`if coordinates[-1] not in sampled`). -/
noncomputable def sample_route_coordinates (coordinates : List Coord)
    (sample_distance_m : ℝ) : List Coord :=
  match coordinates with
  | [] => []
  | c0 :: rest =>
    let sampled := c0 :: sampleAux sample_distance_m c0 rest
    if (c0 :: rest).getLast (by simp) ∈ sampled then sampled
    else sampled ++ [(c0 :: rest).getLast (by simp)]

/-! ## Python `round` (banker's rounding) -/

/-- Round to the nearest integer, ties to the even neighbour
(CPython's rounding mode), on `ℝ`. -/
noncomputable def pyRoundHalfEven (y : ℝ) : ℤ :=
  if Int.fract y < 1 / 2 then ⌊y⌋
  else if 1 / 2 < Int.fract y then ⌊y⌋ + 1
  else if ⌊y⌋ % 2 = 0 then ⌊y⌋ else ⌊y⌋ + 1

/-- Python `round(x, ndigits)` on `ℝ` (up to binary-float representation of
the argument, which the embedding idealises away). -/
noncomputable def pyRound (ndigits : ℕ) (x : ℝ) : ℝ :=
  (pyRoundHalfEven (x * 10 ^ ndigits) : ℝ) / 10 ^ ndigits

/-- Round to the nearest integer, ties to the even neighbour, on `ℚ`. -/
def pyRoundHalfEvenQ (y : ℚ) : ℤ :=
  if Int.fract y < 1 / 2 then ⌊y⌋
  else if 1 / 2 < Int.fract y then ⌊y⌋ + 1
  else if ⌊y⌋ % 2 = 0 then ⌊y⌋ else ⌊y⌋ + 1

/-- Python `round(x, ndigits)` on `ℚ`. -/
def pyRoundQ (ndigits : ℕ) (x : ℚ) : ℚ :=
  (pyRoundHalfEvenQ (x * 10 ^ ndigits) : ℚ) / 10 ^ ndigits

/-! ## `route_agent.py`: amenity extraction from raw point features -/

/-- A raw geographic point feature (an `overpy` node): identifier, optional
coordinates and an insertion-ordered tag dictionary (OSM tag keys are unique,
so an association list is a faithful model). -/
structure OSMNode where
  id : ℕ
  lat : Option ℝ
  lon : Option ℝ
  tags : List (String × String)

/-- The classification loop of `extract_amenity_info`
(`src/route_agent.py` lines 334-341): walk the tags in dictionary order and
stop at the first whose key is `amenity`, `shop` or `tourism`; the result is
`(amenity_type, category)`, defaulting to `("unknown", "other")`. -/
def classifyTags : List (String × String) → String × String
  | [] => ("unknown", "other")
  | (key, value) :: rest =>
    if key ∈ ["amenity", "shop", "tourism"] then (key ++ "=" ++ value, key)
    else classifyTags rest

/-- The amenity record built by `extract_amenity_info`. -/
structure AmenityRec where
  id : ℕ
  name : String
  type : String
  category : String
  brand : String
  opening_hours : String
  location : Coord
  distance_from_route_m : ℝ
  osm_link : String

/-- `RouteAnalysisAgent.extract_amenity_info` (`src/route_agent.py`
lines 318-361): `none` when the node lacks coordinates, otherwise the
normalized amenity record with the recomputed rounded distance. -/
noncomputable def extract_amenity_info (node : OSMNode)
    (route_lat route_lon : ℝ) : Option AmenityRec :=
  match node.lat, node.lon with
  | some amenity_lat, some amenity_lon =>
    let distance :=
      haversine_distance (route_lat, route_lon) (amenity_lat, amenity_lon) * 1000
    let tc := classifyTags node.tags
    some
      { id := node.id
        name := (node.tags.lookup "name").getD ("Unnamed " ++ tc.1)
        type := tc.1
        category := tc.2
        brand := (node.tags.lookup "brand").getD ""
        opening_hours := (node.tags.lookup "opening_hours").getD ""
        location := (amenity_lat, amenity_lon)
        distance_from_route_m := pyRound 1 distance
        osm_link := "https://openstreetmap.org/node/" ++ toString node.id }
  | _, _ => none

/-! ## `route_agent.py`: detour opportunities, deduplication, analysis -/

/-- The way record built by `extract_simple_way_info`. -/
structure WayRec where
  id : ℕ
  highway : String
  name : String
  maxspeed : String
  surface : String
  bicycle : String
  foot : String
  middle_node : Coord
  node_count : ℕ
  osm_link : String

/-- A detour opportunity, as produced by `create_amenity_detour` and
`create_simple_way_detour` (`src/route_agent.py` lines 462-486): a tagged
record (`'type': 'amenity'` / `'type': 'way'`) bundling the underlying
feature, a detour distance in metres and a description string.  These two
constructors are the only producers of detour dictionaries, so the sum type
captures every value the analyzer's deduplication can see. -/
inductive DetourOpp where
  | amenity (a : AmenityRec) (detour_distance_m : ℝ) (description : String)
  | way (w : WayRec) (detour_distance_m : ℝ) (description : String)

/-- The deduplication key of `analyze_route` (`src/route_agent.py`
lines 534-540): `f"amenity_{id}"` or `f"way_{id}"`. -/
def detourKey : DetourOpp → String
  | .amenity a _ _ => "amenity_" ++ toString a.id
  | .way w _ _ => "way_" ++ toString w.id

/-- The global deduplication of `analyze_route` (`src/route_agent.py`
lines 532-545): a first-occurrence-wins insertion into an ordered map,
modelled with the set of already-seen keys made explicit. -/
def dedupGo (seen : List String) : List DetourOpp → List DetourOpp
  | [] => []
  | d :: rest =>
    if detourKey d ∈ seen then dedupGo seen rest
    else d :: dedupGo (detourKey d :: seen) rest

/-- `unique_detours = list(unique_detours.values())` after the keyed
first-occurrence insertion pass. -/
def dedupDetours (all_detours : List DetourOpp) : List DetourOpp :=
  dedupGo [] all_detours

/-- Whether a detour opportunity is amenity-kind (`d['type'] == 'amenity'`). -/
def DetourOpp.isAmenity : DetourOpp → Bool
  | .amenity _ _ _ => true
  | .way _ _ _ => false

/-- One entry of `route_segments` built per sampled point in `analyze_route`
(`src/route_agent.py` lines 516-522). -/
structure RouteSegment where
  segment_id : ℕ
  coordinate : Coord
  detour_count : ℕ
  detours : List DetourOpp

/-- The `route_info` block of the analysis dictionary. -/
structure RouteInfoR where
  total_coordinates : ℕ
  sampled_points : ℕ
  route_distance_km : ℝ
  start_coordinate : Coord
  end_coordinate : Coord

/-- The `detour_summary` block of the analysis dictionary. -/
structure DetourSummaryR where
  total_detours : ℕ
  amenity_detours : ℕ
  way_detours : ℕ

/-- The analysis dictionary returned by `analyze_route` (minus the file name
and the timestamp, which are I/O). -/
structure Analysis where
  route_info : RouteInfoR
  detour_summary : DetourSummaryR
  route_segments : List RouteSegment
  all_detours_amenities : List DetourOpp
  all_detours_ways : List DetourOpp

/-- Sum of haversine distances over consecutive coordinates
(`src/route_agent.py` lines 528-530). -/
noncomputable def routeDistanceKm (coordinates : List Coord) : ℝ :=
  ((coordinates.zip coordinates.tail).map
    (fun p => haversine_distance p.1 p.2)).sum

/-- `RouteAnalysisAgent.analyze_route` (`src/route_agent.py` lines 488-574).
File loading is I/O, so the function takes the parsed coordinate list; the
per-point geographic-data lookup `find_detour_opportunities` performs network
queries, so it is a parameter `find`.  An empty coordinate list is the
source's `{"error": ...}` return, modelled as `none`. -/
noncomputable def analyze_route (find : Coord → List DetourOpp)
    (coordinates : List Coord) (sample_distance_m : ℝ) : Option Analysis :=
  match h : coordinates with
  | [] => none
  | c0 :: rest =>
    let sampled_coords := sample_route_coordinates coordinates sample_distance_m
    let route_segments := sampled_coords.enum.map (fun p =>
      { segment_id := p.1 + 1
        coordinate := p.2
        detour_count := (find p.2).length
        detours := find p.2 : RouteSegment })
    let all_detours := (sampled_coords.map find).flatten
    let unique_detours := dedupDetours all_detours
    let amenity_detours := unique_detours.filter (fun d => d.isAmenity)
    let way_detours := unique_detours.filter (fun d => !d.isAmenity)
    some
      { route_info :=
          { total_coordinates := coordinates.length
            sampled_points := sampled_coords.length
            route_distance_km := pyRound 2 (routeDistanceKm coordinates)
            start_coordinate := c0
            end_coordinate := (c0 :: rest).getLast (by simp) }
        detour_summary :=
          { total_detours := unique_detours.length
            amenity_detours := amenity_detours.length
            way_detours := way_detours.length }
        route_segments := route_segments
        all_detours_amenities := amenity_detours
        all_detours_ways := way_detours }

/-! ## `route_agent.py`: `save_analysis_report` -/

/-- A `{'lat': .., 'lon': ..}` dictionary in the saved report. -/
structure SavedCoordinate where
  lat : ℝ
  lon : ℝ

/-- An amenity entry of a saved sampling point
(`src/route_agent.py` lines 612-625). -/
structure SavedAmenity where
  id : ℕ
  name : String
  type : String
  category : String
  brand : String
  opening_hours : String
  distance_from_route_m : ℝ
  location : SavedCoordinate
  osm_link : String

/-- A way entry of a saved sampling point
(`src/route_agent.py` lines 630-637). -/
structure SavedWay where
  id : ℕ
  highway : String
  maxspeed : String
  surface : String
  distance_from_route_m : ℝ
  middle_node : Coord

/-- The `detours` block of a saved sampling point. -/
structure SavedDetours where
  amenities : List SavedAmenity
  ways : List SavedWay

/-- One entry of the saved report's `sampling_points` list. -/
structure SavedPoint where
  point_id : ℕ
  coordinate : SavedCoordinate
  detour_count : ℕ
  detours : SavedDetours

/-- The per-segment grouping loop of `save_analysis_report`
(`src/route_agent.py` lines 608-638): split a segment's detours into the
amenity and way groups, projecting each to its saved fields. -/
def segmentToSaved (segment : RouteSegment) : SavedPoint :=
  { point_id := segment.segment_id
    coordinate := ⟨segment.coordinate.1, segment.coordinate.2⟩
    detour_count := segment.detour_count
    detours :=
      { amenities := segment.detours.filterMap (fun d =>
          match d with
          | .amenity a dist _ =>
            some { id := a.id, name := a.name, type := a.type
                   category := a.category, brand := a.brand
                   opening_hours := a.opening_hours
                   distance_from_route_m := dist
                   location := ⟨a.location.1, a.location.2⟩
                   osm_link := a.osm_link }
          | .way _ _ _ => none)
        ways := segment.detours.filterMap (fun d =>
          match d with
          | .way w dist _ =>
            some { id := w.id, highway := w.highway, maxspeed := w.maxspeed
                   surface := w.surface, distance_from_route_m := dist
                   middle_node := w.middle_node }
          | .amenity _ _ _ => none) } }

/-- The `sampling_points` list that `save_analysis_report` actually writes
(`src/route_agent.py` lines 594-640).  In the source the
`clean_output['sampling_points'].append(segment_info)` statement sits at the
indentation level of the `for segment in analysis['route_segments']:` loop,
i.e. *outside* its body, so only the loop variable's final value — the last
segment — is ever appended.  On an empty segment list the source would raise
`NameError` (`segment_info` unbound), modelled as `none`. -/
def savedSamplingPoints (route_segments : List RouteSegment) :
    Option (List SavedPoint) :=
  route_segments.getLast?.map (fun segment => [segmentToSaved segment])

/-! ## `orchestrator.py`: the saved-report shape the filters consume

The two summarization filters read a report dictionary (`analysis`) and only
ever compare its JSON-borne numbers, so numbers are modelled as `ℚ` to keep
the filters executable.  Optional dictionary keys are `Option`. -/

/-- An amenity entry as the filters read it: `name`, `type`, `category`,
`brand`/`opening_hours`/`additional_info` (read with `.get`, defaulting),
`distance_from_route_m` and `location`. -/
structure QAmenity where
  name : String
  type : String
  category : String
  brand : String
  opening_hours : String
  distance_from_route_m : ℚ
  location : ℚ × ℚ
  additional_info : List (String × String)
deriving DecidableEq

/-- A way entry of a report sampling point (never read by the filters). -/
structure QWay where
  id : ℕ
  highway : String
  maxspeed : String
  surface : String
  distance_from_route_m : ℚ
  middle_node : ℚ × ℚ
deriving DecidableEq

/-- The `detours` block of a report sampling point; the filters check for the
`amenities` key (`'amenities' not in point['detours']`). -/
structure QDetours where
  amenities : Option (List QAmenity)
  ways : Option (List QWay)
deriving DecidableEq

/-- One report sampling point; the filters check for the `detours` key. -/
structure QPoint where
  point_id : ℕ
  coordinate : ℚ × ℚ
  detour_count : ℕ
  detours : Option QDetours
deriving DecidableEq

/-- The `route_info` block of a report, echoed verbatim by the filters. -/
structure QRouteInfo where
  total_coordinates : ℕ
  sampled_points : ℕ
  route_distance_km : ℚ
  start_coordinate : ℚ × ℚ
  end_coordinate : ℚ × ℚ
deriving DecidableEq

/-- The `detour_summary` block of a report. -/
structure QDetourSummary where
  total_detours : ℕ
  amenity_detours : ℕ
  way_detours : ℕ
deriving DecidableEq

/-- A detour-analysis report as the orchestrator's filters receive it; the
`sampling_points` key may be missing (`Option`). -/
structure QReport where
  route_info : QRouteInfo
  analysis_date : String
  detour_summary : QDetourSummary
  sampling_points : Option (List QPoint)
deriving DecidableEq

/-! ## `orchestrator.py`: `_filter_and_summarize_amenities` -/

/-- `priority_categories` (`src/orchestrator.py` lines 186-192), a set only
ever tested by membership, in source order. -/
def priority_categories : List String :=
  ["restaurant", "cafe", "fast_food", "pub", "bar",
   "bank", "atm", "pharmacy", "hospital",
   "toilets", "drinking_water", "water_point", "fountain",
   "bicycle_parking", "bicycle_rental", "bicycle_repair_station",
   "park", "viewpoint", "attraction", "museum", "gallery"]

/-- `skip_types` (`src/orchestrator.py` line 195). -/
def skip_types : List String :=
  ["bench", "waste_basket", "recycling", "unknown"]

/-- The per-amenity keep decision of `_filter_and_summarize_amenities`
(`src/orchestrator.py` lines 206-218): drop unnamed non-priority entries,
drop utility types, drop anything farther than 200 m. -/
def keepGeneral (a : QAmenity) : Bool :=
  if pyStartsWith a.name "Unnamed" &&
      !(priority_categories.any (fun cat => pyIn cat a.type)) then false
  else if skip_types.any (fun sk => pyIn sk a.type) then false
  else if a.distance_from_route_m > 200 then false
  else true

/-- The record appended to `filtered_amenities`
(`src/orchestrator.py` lines 220-228). -/
structure FAmenity where
  name : String
  type : String
  category : String
  brand : String
  opening_hours : String
  distance_m : ℚ
  location : ℚ × ℚ
deriving DecidableEq

/-- Projection of a kept amenity to its summarized record. -/
def toFilteredGeneral (a : QAmenity) : FAmenity :=
  { name := a.name, type := a.type, category := a.category, brand := a.brand
    opening_hours := a.opening_hours
    distance_m := pyRoundQ 1 a.distance_from_route_m
    location := a.location }

/-- One insertion into the `category_counts` dictionary: find the category's
bucket (insertion-ordered) and append, or open a new bucket. -/
def addToGroups {α : Type} (gs : List (String × List α)) (cat : String)
    (a : α) : List (String × List α) :=
  match gs with
  | [] => [(cat, [a])]
  | (c, l) :: rest =>
    if c = cat then (c, l ++ [a]) :: rest
    else (c, l) :: addToGroups rest cat a

/-- The category-grouping loop (`src/orchestrator.py` lines 232-237). -/
def groupByCategory {α : Type} (category : α → String) (l : List α) :
    List (String × List α) :=
  l.foldl (fun gs a => addToGroups gs (category a) a) []

/-- One entry of `summarized_points` (`src/orchestrator.py` lines 239-243). -/
structure GSummaryPoint where
  coordinate : ℚ × ℚ
  amenity_summary : List (String × List FAmenity)
  total_nearby : ℕ
deriving DecidableEq

/-- Per-point work of `_filter_and_summarize_amenities`
(`src/orchestrator.py` lines 200-245): skip points without amenity data
(`continue`), filter, and summarize only points keeping at least one
amenity. -/
def summarizeGeneralPoint (point : QPoint) : Option GSummaryPoint :=
  match point.detours with
  | none => none
  | some d =>
    match d.amenities with
    | none => none
    | some amens =>
      let filtered := (amens.filter keepGeneral).map toFilteredGeneral
      if filtered.isEmpty then none
      else
        some { coordinate := point.coordinate
               amenity_summary := groupByCategory FAmenity.category filtered
               total_nearby := filtered.length }

/-- The summary dictionary returned by `_filter_and_summarize_amenities`
(`src/orchestrator.py` lines 247-252). -/
structure GSummary where
  route_info : QRouteInfo
  total_relevant_amenities : ℕ
  key_amenity_locations : List GSummaryPoint
  summary : String
deriving DecidableEq

/-- The general filter returns either the input unchanged (missing
`sampling_points`) or a freshly built summary dictionary. -/
inductive GeneralResult where
  | unchanged (r : QReport)
  | summarized (s : GSummary)
deriving DecidableEq

/-- `RouteOrchestrator._filter_and_summarize_amenities`
(`src/orchestrator.py` lines 179-252). -/
def filter_and_summarize_amenities (analysis : QReport) : GeneralResult :=
  match analysis.sampling_points with
  | none => .unchanged analysis
  | some points =>
    let summarized_points := points.filterMap summarizeGeneralPoint
    let total := (summarized_points.map (fun p => p.total_nearby)).sum
    .summarized
      { route_info := analysis.route_info
        total_relevant_amenities := total
        key_amenity_locations := summarized_points.take 3
        summary := "Found " ++ toString total ++
          " relevant amenities along the route" }

/-! ## `orchestrator.py`: `_filter_amenities_by_user_needs` -/

/-- The `'default'` entry of `need_to_categories`
(`src/orchestrator.py` lines 296-297). -/
def default_categories : List String :=
  ["restaurant", "cafe", "fast_food", "bank", "atm", "toilets",
   "drinking_water", "bicycle_repair_station", "park", "viewpoint"]

/-- `need_to_categories` (`src/orchestrator.py` lines 261-298), an
insertion-ordered dictionary of category sets (sets appear only through
membership tests and unions, so lists in source order model them). -/
def need_to_categories : List (String × List String) :=
  [("food", ["restaurant", "cafe", "fast_food", "pub", "bar", "bakery"]),
   ("coffee", ["cafe"]),
   ("restaurant", ["restaurant", "fast_food", "pub", "bar"]),
   ("drink", ["pub", "bar", "cafe"]),
   ("eating", ["restaurant", "cafe", "fast_food", "bakery"]),
   ("money", ["bank", "atm"]),
   ("bank", ["bank", "atm"]),
   ("atm", ["atm"]),
   ("medical", ["pharmacy", "hospital"]),
   ("pharmacy", ["pharmacy"]),
   ("gas", ["fuel"]),
   ("fuel", ["fuel"]),
   ("water", ["drinking_water", "water_point", "fountain"]),
   ("toilet", ["toilets"]),
   ("restroom", ["toilets"]),
   ("bathroom", ["toilets"]),
   ("bike", ["bicycle_parking", "bicycle_rental", "bicycle_repair_station",
             "bicycle"]),
   ("parking", ["bicycle_parking"]),
   ("repair", ["bicycle_repair_station"]),
   ("park", ["park", "garden", "nature_reserve"]),
   ("recreation", ["park", "playground", "sports_centre", "swimming_pool"]),
   ("tourist", ["viewpoint", "attraction", "museum", "gallery"]),
   ("shopping", ["convenience", "supermarket", "mall", "shop"]),
   ("default", default_categories)]

/-- The target-category computation of `_filter_amenities_by_user_needs`
(`src/orchestrator.py` lines 300-313): empty needs fall back to the default
set; otherwise every dictionary entry whose key matches a need by the
two-way substring rule contributes its categories; an empty result falls
back to the default set.  Python's `set` is modelled as the insertion-ordered
list of added categories (membership- and emptiness-equivalent; duplicates
are harmless to every later use). -/
def targetCategoriesFor (user_needs : List String) : List String :=
  let target :=
    if user_needs.isEmpty then default_categories
    else
      user_needs.foldl (fun acc need =>
        let need_lower := pyLower need
        need_to_categories.foldl (fun acc2 kv =>
          if pyIn kv.1 need_lower || pyIn need_lower kv.1 then acc2 ++ kv.2
          else acc2) acc) []
  if target.isEmpty then default_categories else target

/-- The per-amenity keep decision of `_filter_amenities_by_user_needs`
(`src/orchestrator.py` lines 324-340): require a target-category match on the
lower-cased type, a distance within `max_distance`, and drop unnamed entries
outside the five high-priority categories. -/
def keepNeeds (target_categories : List String) (max_distance : ℚ)
    (a : QAmenity) : Bool :=
  let amenity_type := pyLower a.type
  if !(target_categories.any (fun cat => pyIn cat amenity_type)) then false
  else if a.distance_from_route_m > max_distance then false
  else if pyStartsWith a.name "Unnamed" &&
      !(["restaurant", "cafe", "bank", "atm", "park"].any
        (fun pr => pyIn pr amenity_type)) then false
  else true

/-- The record appended to `filtered_amenities` by the needs filter
(`src/orchestrator.py` lines 342-351): the general record plus
`additional_info`. -/
structure FAmenityN where
  name : String
  type : String
  category : String
  brand : String
  opening_hours : String
  distance_m : ℚ
  location : ℚ × ℚ
  additional_info : List (String × String)
deriving DecidableEq

/-- Projection of a kept amenity to its needs-summarized record. -/
def toFilteredNeeds (a : QAmenity) : FAmenityN :=
  { name := a.name, type := a.type, category := a.category, brand := a.brand
    opening_hours := a.opening_hours
    distance_m := pyRoundQ 1 a.distance_from_route_m
    location := a.location
    additional_info := a.additional_info }

/-- One entry of the needs filter's `summarized_points`
(`src/orchestrator.py` lines 362-366). -/
structure NSummaryPoint where
  coordinate : ℚ × ℚ
  amenity_summary : List (String × List FAmenityN)
  total_nearby : ℕ
deriving DecidableEq

/-- Per-point work of `_filter_amenities_by_user_needs`
(`src/orchestrator.py` lines 318-368). -/
def summarizeNeedsPoint (target_categories : List String)
    (max_distance : ℚ) (point : QPoint) : Option NSummaryPoint :=
  match point.detours with
  | none => none
  | some d =>
    match d.amenities with
    | none => none
    | some amens =>
      let filtered :=
        (amens.filter (keepNeeds target_categories max_distance)).map
          toFilteredNeeds
      if filtered.isEmpty then none
      else
        some { coordinate := point.coordinate
               amenity_summary := groupByCategory FAmenityN.category filtered
               total_nearby := filtered.length }

/-- The summary dictionary returned by `_filter_amenities_by_user_needs`
(`src/orchestrator.py` lines 370-377). -/
structure NSummary where
  route_info : QRouteInfo
  user_needs : List String
  target_categories : List String
  total_relevant_amenities : ℕ
  key_amenity_locations : List NSummaryPoint
  summary : String
deriving DecidableEq

/-- The needs filter returns either the input unchanged (missing
`sampling_points`) or a freshly built summary dictionary. -/
inductive NeedsResult where
  | unchanged (r : QReport)
  | summarized (s : NSummary)
deriving DecidableEq

/-- `RouteOrchestrator._filter_amenities_by_user_needs`
(`src/orchestrator.py` lines 254-377).  `max_distance` is
`250 if user_needs else 150` (line 333). -/
def filter_amenities_by_user_needs (analysis : QReport)
    (user_needs : List String) : NeedsResult :=
  match analysis.sampling_points with
  | none => .unchanged analysis
  | some points =>
    let target_categories := targetCategoriesFor user_needs
    let max_distance : ℚ := if user_needs.isEmpty then 150 else 250
    let summarized_points :=
      points.filterMap (summarizeNeedsPoint target_categories max_distance)
    let total := (summarized_points.map (fun p => p.total_nearby)).sum
    .summarized
      { route_info := analysis.route_info
        user_needs := user_needs
        target_categories := target_categories
        total_relevant_amenities := total
        key_amenity_locations := summarized_points.take 5
        summary := "Found " ++ toString total ++ " relevant amenities for: " ++
          (if user_needs.isEmpty then "general needs"
           else String.intercalate ", " user_needs) }

/-! ## Geometry lemmas -/

/-- The haversine radicand is symmetric in the two coordinates. -/
lemma hav_arg_comm (la1 lo1 la2 lo2 : ℝ) :
    Real.sin ((la2 - la1) / 2) ^ 2 +
      Real.cos la1 * Real.cos la2 * Real.sin ((lo2 - lo1) / 2) ^ 2 =
    Real.sin ((la1 - la2) / 2) ^ 2 +
      Real.cos la2 * Real.cos la1 * Real.sin ((lo1 - lo2) / 2) ^ 2 := by
  rw [show (la2 - la1) / 2 = -((la1 - la2) / 2) by ring,
    show (lo2 - lo1) / 2 = -((lo1 - lo2) / 2) by ring,
    Real.sin_neg, Real.sin_neg]
  ring

/-- `haversine_distance` is symmetric. -/
lemma haversine_comm (c1 c2 : Coord) :
    haversine_distance c1 c2 = haversine_distance c2 c1 := by
  simp only [haversine_distance]
  rw [hav_arg_comm]

/-- `haversine_distance` of a point with itself is zero. -/
lemma haversine_self (c : Coord) : haversine_distance c c = 0 := by
  simp [haversine_distance, Real.arcsin_zero]

/-- On the equator the haversine formula is exact: two points of latitude 0
whose longitudes differ by `d ∈ [0, 180]` degrees are `d·(π/180)·6371`
kilometres apart. -/
lemma haversine_equator (x d : ℝ) (h0 : 0 ≤ d) (h180 : d ≤ 180) :
    haversine_distance (0, x) (0, x + d) = d * (Real.pi / 180) * 6371 := by
  have hπ := Real.pi_pos
  simp only [haversine_distance, radians, zero_mul]
  rw [show ((0:ℝ) - 0) / 2 = 0 by norm_num,
    show ((x + d) * (Real.pi / 180) - x * (Real.pi / 180)) / 2 =
      d * (Real.pi / 360) by ring]
  rw [Real.sin_zero, Real.cos_zero]
  rw [show (0:ℝ) ^ 2 + 1 * 1 * Real.sin (d * (Real.pi / 360)) ^ 2 =
    Real.sin (d * (Real.pi / 360)) ^ 2 by ring]
  rw [Real.sqrt_sq_eq_abs]
  have hactive : d * (Real.pi / 360) ≤ Real.pi / 2 := by nlinarith
  have hnonneg : 0 ≤ d * (Real.pi / 360) := by positivity
  rw [abs_of_nonneg (Real.sin_nonneg_of_nonneg_of_le_pi hnonneg
    (by nlinarith))]
  rw [Real.arcsin_sin (by nlinarith) hactive]
  ring

/-- **C9.** For every pair of coordinates `a` and `b` (in particular all
pairs in valid degree ranges), the haversine distance function of
`route_agent.py` is symmetric: `distance(a, b) = distance(b, a)`. -/
theorem haversine_distance_symmetric (a b : Coord) :
    haversine_distance a b = haversine_distance b a :=
  haversine_comm a b

/-! ## Sampling lemmas -/

/-- The distance-gated pass picks a subsequence of its input. -/
lemma sampleAux_sublist (s : ℝ) (last : Coord) (l : List Coord) :
    List.Sublist (sampleAux s last l) l := by
  induction l generalizing last with
  | nil => simp [sampleAux]
  | cons c rest ih =>
    rw [sampleAux]
    split
    · exact List.Sublist.cons₂ c (ih c)
    · exact List.Sublist.cons c (ih last)

/-- Either the distance-gated pass emits the final input coordinate, or it
emits strictly fewer points than it consumes. -/
lemma sampleAux_getLast_mem_or_lt (s : ℝ) (last : Coord) (l : List Coord)
    (e : Coord) (hl : l.getLast? = some e) :
    e ∈ sampleAux s last l ∨ (sampleAux s last l).length < l.length := by
  induction l generalizing last with
  | nil => simp at hl
  | cons c rest ih =>
    cases rest with
    | nil =>
      simp only [List.getLast?_singleton, Option.some.injEq] at hl
      subst hl
      rw [sampleAux]
      split
      · exact Or.inl (List.mem_cons_self _ _)
      · simp [sampleAux]
    | cons c2 rest2 =>
      rw [List.getLast?_cons_cons] at hl
      rw [sampleAux]
      split
      · rcases ih c hl with hmem | hlt
        · exact Or.inl (List.mem_cons_of_mem _ hmem)
        · right
          simpa [Nat.succ_lt_succ_iff] using hlt
      · rcases ih last hl with hmem | hlt
        · exact Or.inl hmem
        · right
          calc (sampleAux s last (c2 :: rest2)).length
              < (c2 :: rest2).length := hlt
            _ < (c :: c2 :: rest2).length := by simp
      
/-- If the distance-gated pass does not emit the final input coordinate, its
output is a subsequence of the input without its last element. -/
lemma sampleAux_sublist_dropLast (s : ℝ) (last : Coord) (l : List Coord)
    (e : Coord) (hl : l.getLast? = some e)
    (hnot : e ∉ sampleAux s last l) :
    List.Sublist (sampleAux s last l) l.dropLast := by
  induction l generalizing last with
  | nil => simp at hl
  | cons c rest ih =>
    cases rest with
    | nil =>
      simp only [List.getLast?_singleton, Option.some.injEq] at hl
      subst hl
      by_cases hc : haversine_distance last c * 1000 ≥ s
      · rw [sampleAux, if_pos hc] at hnot
        exact absurd (List.mem_cons_self _ _) hnot
      · rw [sampleAux, if_neg hc]
        simp [sampleAux]
    | cons c2 rest2 =>
      rw [List.getLast?_cons_cons] at hl
      by_cases hc : haversine_distance last c * 1000 ≥ s
      · rw [sampleAux, if_pos hc] at hnot ⊢
        have hnot2 : e ∉ sampleAux s c (c2 :: rest2) :=
          fun hm => hnot (List.mem_cons_of_mem _ hm)
        rw [List.dropLast_cons₂]
        exact List.Sublist.cons₂ c (ih c hl hnot2)
      · rw [sampleAux, if_neg hc] at hnot ⊢
        rw [List.dropLast_cons₂]
        exact List.Sublist.cons c (ih last hl hnot)

/-- Every pair of consecutive points emitted by the distance-gated pass,
including the seed `last`, is at least `s` metres apart. -/
lemma chain'_sampleAux (s : ℝ) (last : Coord) (l : List Coord) :
    List.Chain' (fun a b => haversine_distance a b * 1000 ≥ s)
      (last :: sampleAux s last l) := by
  induction l generalizing last with
  | nil => simp [sampleAux]
  | cons c rest ih =>
    by_cases hc : haversine_distance last c * 1000 ≥ s
    · rw [sampleAux, if_pos hc]
      exact List.chain'_cons.mpr ⟨hc, ih c⟩
    · rw [sampleAux, if_neg hc]
      exact ih last

/-- The sampler always emits the route's first coordinate first. -/
lemma sample_route_coordinates_head? (coordinates : List Coord) (s : ℝ)
    (h : coordinates ≠ []) :
    (sample_route_coordinates coordinates s).head? = coordinates.head? := by
  cases coordinates with
  | nil => exact absurd rfl h
  | cons c0 rest =>
    rw [sample_route_coordinates]
    split
    · rfl
    · rw [List.cons_append]
      rfl

/-- The route's final coordinate always occurs somewhere in the sampler's
output (by value). -/
lemma getLast_mem_sample (coordinates : List Coord) (s : ℝ)
    (h : coordinates ≠ []) :
    coordinates.getLast h ∈ sample_route_coordinates coordinates s := by
  cases coordinates with
  | nil => exact absurd rfl h
  | cons c0 rest =>
    rw [sample_route_coordinates]
    split
    · next hmem => exact hmem
    · exact List.mem_append_right _ (List.mem_singleton.mpr rfl)

/-- When the final coordinate's value was not emitted by the distance-gated
pass, the sampler's output ends with it. -/
lemma sample_getLast_of_not_mem (coordinates : List Coord) (s : ℝ)
    (h : coordinates ≠ [])
    (hnot : coordinates.getLast h ∉
      (coordinates.head h) ::
        sampleAux s (coordinates.head h) (coordinates.tail)) :
    (sample_route_coordinates coordinates s).getLast? =
      some (coordinates.getLast h) := by
  cases coordinates with
  | nil => exact absurd rfl h
  | cons c0 rest =>
    rw [sample_route_coordinates]
    split
    · next hmem => exact absurd hmem (by simpa using hnot)
    · rw [List.getLast?_concat]

/-- The sampler output has at least one and at most `length coordinates`
elements. -/
lemma sample_length_bounds (coordinates : List Coord) (s : ℝ)
    (h : coordinates ≠ []) :
    1 ≤ (sample_route_coordinates coordinates s).length ∧
      (sample_route_coordinates coordinates s).length ≤ coordinates.length := by
  cases coordinates with
  | nil => exact absurd rfl h
  | cons c0 rest =>
    rw [sample_route_coordinates]
    split
    · refine ⟨by simp, ?_⟩
      have := (sampleAux_sublist s c0 rest).length_le
      simp only [List.length_cons]
      omega
    · next hnotmem =>
      refine ⟨by simp, ?_⟩
      cases rest with
      | nil =>
        exact absurd (by simp [sampleAux]) hnotmem
      | cons c1 rest1 =>
        have hlast : (c0 :: c1 :: rest1).getLast (by simp) =
            (c1 :: rest1).getLast (by simp) := List.getLast_cons (by simp)
        have hl? : (c1 :: rest1).getLast? = some ((c1 :: rest1).getLast (by simp)) :=
          List.getLast?_eq_getLast _ _
        have hnotaux : (c1 :: rest1).getLast (by simp) ∉
            sampleAux s c0 (c1 :: rest1) := by
          intro hmem
          exact hnotmem (by
            rw [hlast]
            exact List.mem_cons_of_mem _ hmem)
        rcases sampleAux_getLast_mem_or_lt s c0 (c1 :: rest1) _ hl? with hmem | hlt
        · exact absurd hmem hnotaux
        · simp only [List.length_append, List.length_cons, List.length_nil]
          simp only [List.length_cons] at hlt
          omega

/-- Equator distance with explicit endpoints. -/
lemma haversine_equator_le (x y : ℝ) (hxy : x ≤ y) (h180 : y - x ≤ 180) :
    haversine_distance (0, x) (0, y) = (y - x) * (Real.pi / 180) * 6371 := by
  have h := haversine_equator x (y - x) (by linarith) h180
  rw [show x + (y - x) = y by ring] at h
  exact h

/-- The route used to refute endpoint retention at the last position:
equatorial points at longitudes 0°, 1°, 0.001° and back to 0°. -/
def c3route : List Coord :=
  [((0:ℝ), (0:ℝ)), ((0:ℝ), (1:ℝ)), ((0:ℝ), (0.001:ℝ)), ((0:ℝ), (0:ℝ))]

/-- With 100 km spacing, the distance-gated pass over `c3route` keeps the 1°
and 0.001° points and skips the final return to 0°. -/
lemma c3_sampleAux_eval :
    sampleAux 100000 ((0:ℝ), (0:ℝ))
      [((0:ℝ), (1:ℝ)), ((0:ℝ), (0.001:ℝ)), ((0:ℝ), (0:ℝ))] =
    [((0:ℝ), (1:ℝ)), ((0:ℝ), (0.001:ℝ))] := by
  have f1 : haversine_distance ((0:ℝ), (0:ℝ)) ((0:ℝ), (1:ℝ)) * 1000 ≥ 100000 := by
    rw [haversine_equator_le 0 1 (by norm_num) (by norm_num)]
    have := Real.pi_gt_d2
    nlinarith
  have f2 : haversine_distance ((0:ℝ), (1:ℝ)) ((0:ℝ), (0.001:ℝ)) * 1000 ≥ 100000 := by
    rw [haversine_comm, haversine_equator_le 0.001 1 (by norm_num) (by norm_num)]
    have := Real.pi_gt_d2
    nlinarith
  have f3 : ¬(haversine_distance ((0:ℝ), (0.001:ℝ)) ((0:ℝ), (0:ℝ)) * 1000 ≥ 100000) := by
    rw [haversine_comm, haversine_equator_le 0 0.001 (by norm_num) (by norm_num)]
    have := Real.pi_lt_d2
    push_neg
    nlinarith
  rw [sampleAux, if_pos f1, sampleAux, if_pos f2, sampleAux, if_neg f3, sampleAux]

/-- **C3, counterexample.**  On a route that returns to its starting point the
sampler's last element is the 0.001° point, not the route's final coordinate:
the membership test `coordinates[-1] not in sampled` sees the start value and
skips the final append. -/
theorem c3_counterexample :
    (sample_route_coordinates c3route 100000).getLast? =
      some ((0:ℝ), (0.001:ℝ)) ∧
    c3route.getLast? = some ((0:ℝ), (0:ℝ)) ∧
    ((0:ℝ), (0.001:ℝ)) ≠ ((0:ℝ), (0:ℝ)) := by
  refine ⟨?_, by rfl, by norm_num [Prod.ext_iff]⟩
  rw [show c3route =
    ((0:ℝ), (0:ℝ)) :: [((0:ℝ), (1:ℝ)), ((0:ℝ), (0.001:ℝ)), ((0:ℝ), (0:ℝ))]
      from rfl]
  rw [sample_route_coordinates]
  rw [c3_sampleAux_eval]
  rw [if_pos (by exact List.mem_cons_self _ _)]
  rfl

/-- **C3, amended.**  For every non-empty route and spacing `s > 0`, the first
element of the sampler output is the route's first coordinate and the route's
last coordinate occurs in the output (it is the last element whenever its
value was not already emitted, but not in general — see the
counterexample). -/
theorem c3_amended (coordinates : List Coord) (s : ℝ)
    (hne : coordinates ≠ []) (_hs : s > 0) :
    (sample_route_coordinates coordinates s).head? = coordinates.head? ∧
    coordinates.getLast hne ∈ sample_route_coordinates coordinates s :=
  ⟨sample_route_coordinates_head? coordinates s hne,
    getLast_mem_sample coordinates s hne⟩

/-- Witness for `c3_amended` at the singleton route `[(0, 0)]`, spacing 1. -/
theorem c3_amended_witness :
    (sample_route_coordinates [((0:ℝ), (0:ℝ))] 1).head? =
      some ((0:ℝ), (0:ℝ)) ∧
    ((0:ℝ), (0:ℝ)) ∈ sample_route_coordinates [((0:ℝ), (0:ℝ))] 1 := by
  have h := c3_amended [((0:ℝ), (0:ℝ))] 1 (by simp) (by norm_num)
  exact ⟨h.1, h.2⟩

/-- The route used to refute sampling monotonicity: equatorial points at
longitudes 0°, 1.9°, 2.8° and back to 1.9° (about 211 km, 100 km and 100 km
legs). -/
def c4route : List Coord :=
  [((0:ℝ), (0:ℝ)), ((0:ℝ), (1.9:ℝ)), ((0:ℝ), (2.8:ℝ)), ((0:ℝ), (1.9:ℝ))]

/-- With 150 km spacing the sampler keeps `[0°, 1.9°]`: the 2.8° point is only
100 km past 1.9°, the final 1.9° is 0 km away, and its value is already
sampled. -/
lemma c4_sample_at_150000 :
    sample_route_coordinates c4route 150000 = [((0:ℝ), (0:ℝ)), ((0:ℝ), (1.9:ℝ))] := by
  have f1 : haversine_distance ((0:ℝ), (0:ℝ)) ((0:ℝ), (1.9:ℝ)) * 1000 ≥ 150000 := by
    rw [haversine_equator_le 0 1.9 (by norm_num) (by norm_num)]
    have := Real.pi_gt_d2
    nlinarith
  have f2 : ¬(haversine_distance ((0:ℝ), (1.9:ℝ)) ((0:ℝ), (2.8:ℝ)) * 1000 ≥ 150000) := by
    rw [haversine_equator_le 1.9 2.8 (by norm_num) (by norm_num)]
    have := Real.pi_lt_d2
    push_neg
    nlinarith
  have f3 : ¬(haversine_distance ((0:ℝ), (1.9:ℝ)) ((0:ℝ), (1.9:ℝ)) * 1000 ≥ 150000) := by
    rw [haversine_self]
    norm_num
  have haux : sampleAux 150000 ((0:ℝ), (0:ℝ))
      [((0:ℝ), (1.9:ℝ)), ((0:ℝ), (2.8:ℝ)), ((0:ℝ), (1.9:ℝ))] = [((0:ℝ), (1.9:ℝ))] := by
    rw [sampleAux, if_pos f1, sampleAux, if_neg f2, sampleAux, if_neg f3, sampleAux]
  rw [show c4route =
    ((0:ℝ), (0:ℝ)) :: [((0:ℝ), (1.9:ℝ)), ((0:ℝ), (2.8:ℝ)), ((0:ℝ), (1.9:ℝ))]
      from rfl]
  rw [sample_route_coordinates]
  rw [haux]
  rw [if_pos (by
    exact List.mem_cons_of_mem _ (List.mem_cons_self _ _))]

/-- With 300 km spacing the sampler keeps `[0°, 2.8°]` in the distance pass
(1.9° is only 211 km out, 2.8° is 311 km out) and then appends the final
1.9°, which is not among the sampled values: three points. -/
lemma c4_sample_at_300000 :
    sample_route_coordinates c4route 300000 =
      [((0:ℝ), (0:ℝ)), ((0:ℝ), (2.8:ℝ)), ((0:ℝ), (1.9:ℝ))] := by
  have f1 : ¬(haversine_distance ((0:ℝ), (0:ℝ)) ((0:ℝ), (1.9:ℝ)) * 1000 ≥ 300000) := by
    rw [haversine_equator_le 0 1.9 (by norm_num) (by norm_num)]
    have := Real.pi_lt_d2
    push_neg
    nlinarith
  have f2 : haversine_distance ((0:ℝ), (0:ℝ)) ((0:ℝ), (2.8:ℝ)) * 1000 ≥ 300000 := by
    rw [haversine_equator_le 0 2.8 (by norm_num) (by norm_num)]
    have := Real.pi_gt_d2
    nlinarith
  have f3 : ¬(haversine_distance ((0:ℝ), (2.8:ℝ)) ((0:ℝ), (1.9:ℝ)) * 1000 ≥ 300000) := by
    rw [haversine_comm, haversine_equator_le 1.9 2.8 (by norm_num) (by norm_num)]
    have := Real.pi_lt_d2
    push_neg
    nlinarith
  have haux : sampleAux 300000 ((0:ℝ), (0:ℝ))
      [((0:ℝ), (1.9:ℝ)), ((0:ℝ), (2.8:ℝ)), ((0:ℝ), (1.9:ℝ))] = [((0:ℝ), (2.8:ℝ))] := by
    rw [sampleAux, if_neg f1, sampleAux, if_pos f2, sampleAux, if_neg f3, sampleAux]
  rw [show c4route =
    ((0:ℝ), (0:ℝ)) :: [((0:ℝ), (1.9:ℝ)), ((0:ℝ), (2.8:ℝ)), ((0:ℝ), (1.9:ℝ))]
      from rfl]
  rw [sample_route_coordinates]
  rw [haux]
  rw [if_neg (by
    intro hmem
    have : ((0:ℝ), (1.9:ℝ)) = ((0:ℝ), (0:ℝ)) ∨ ((0:ℝ), (1.9:ℝ)) = ((0:ℝ), (2.8:ℝ)) := by
      simpa using hmem
    rcases this with h | h <;> rw [Prod.ext_iff] at h <;> norm_num at h)]
  rfl

/-- **C4, counterexample.**  Increasing the spacing from 150 km to 300 km on
`c4route` *increases* the number of sampled points from 2 to 3: the larger
spacing makes the distance pass miss the final coordinate's value, so the
endpoint append fires and outweighs the coarser sampling. -/
theorem c4_counterexample :
    (150000:ℝ) ≤ 300000 ∧
    (sample_route_coordinates c4route 150000).length <
      (sample_route_coordinates c4route 300000).length := by
  refine ⟨by norm_num, ?_⟩
  rw [c4_sample_at_150000, c4_sample_at_300000]
  norm_num

/-- **C4, amended.**  The sampled-point count is not monotone in the spacing
(see the counterexample); what does hold for every route and spacing is that
a non-empty route yields between 1 and `length route` sampled points. -/
theorem c4_amended (coordinates : List Coord) (s : ℝ) (hne : coordinates ≠ []) :
    1 ≤ (sample_route_coordinates coordinates s).length ∧
      (sample_route_coordinates coordinates s).length ≤ coordinates.length :=
  sample_length_bounds coordinates s hne

/-- Witness for `c4_amended` on a two-point route with both values equal. -/
theorem c4_amended_witness :
    1 ≤ (sample_route_coordinates [((0:ℝ), (0:ℝ)), ((0:ℝ), (0:ℝ))] 5).length ∧
      (sample_route_coordinates [((0:ℝ), (0:ℝ)), ((0:ℝ), (0:ℝ))] 5).length ≤ 2 :=
  c4_amended [((0:ℝ), (0:ℝ)), ((0:ℝ), (0:ℝ))] 5 (by simp)

/-- **C10.**  For every non-empty route and spacing `s > 0`, the sampler
output is a subsequence of the input coordinate list, and every pair of
consecutive sampled points except possibly the final pair (the appended
endpoint) is at least `s` metres apart — stated as: the spacing relation
holds along the output with its last element dropped. -/
theorem sample_sublist_and_spacing (coordinates : List Coord) (s : ℝ)
    (hne : coordinates ≠ []) (_hs : 0 < s) :
    List.Sublist (sample_route_coordinates coordinates s) coordinates ∧
    List.Chain' (fun a b => haversine_distance a b * 1000 ≥ s)
      (sample_route_coordinates coordinates s).dropLast := by
  cases coordinates with
  | nil => exact absurd rfl hne
  | cons c0 rest =>
    have hch := chain'_sampleAux s c0 rest
    rw [sample_route_coordinates]
    split
    · next hmem =>
      exact ⟨List.Sublist.cons₂ c0 (sampleAux_sublist s c0 rest),
        hch.prefix (List.dropLast_prefix _)⟩
    · next hnot =>
      refine ⟨?_, by rw [List.dropLast_concat]; exact hch⟩
      cases rest with
      | nil => exact absurd (List.mem_cons_self _ _) hnot
      | cons c1 rest1 =>
        have hne1 : (c1 :: rest1) ≠ [] := by simp
        have hgl : (c0 :: c1 :: rest1).getLast (by simp) =
            (c1 :: rest1).getLast hne1 := List.getLast_cons hne1
        have hnotaux : (c1 :: rest1).getLast hne1 ∉
            sampleAux s c0 (c1 :: rest1) := by
          intro hm
          exact hnot (by rw [hgl]; exact List.mem_cons_of_mem _ hm)
        have hdrop := sampleAux_sublist_dropLast s c0 (c1 :: rest1) _
          (List.getLast?_eq_getLast _ hne1) hnotaux
        have h1 : List.Sublist
            ((c0 :: sampleAux s c0 (c1 :: rest1)) ++
              [(c1 :: rest1).getLast hne1])
            ((c0 :: (c1 :: rest1).dropLast) ++ [(c1 :: rest1).getLast hne1]) :=
          List.Sublist.append (List.Sublist.cons₂ c0 hdrop)
            (List.Sublist.refl _)
        have h2 : (c0 :: (c1 :: rest1).dropLast) ++
            [(c1 :: rest1).getLast hne1] = c0 :: c1 :: rest1 := by
          rw [List.cons_append, List.dropLast_append_getLast]
        rw [hgl]
        rw [← h2]
        exact h1

/-- Witness for `sample_sublist_and_spacing` at the singleton route
`[(0, 2)]`, spacing 7. -/
theorem sample_sublist_and_spacing_witness :
    List.Sublist (sample_route_coordinates [((0:ℝ), (2:ℝ))] 7)
      [((0:ℝ), (2:ℝ))] ∧
    List.Chain' (fun a b => haversine_distance a b * 1000 ≥ 7)
      (sample_route_coordinates [((0:ℝ), (2:ℝ))] 7).dropLast :=
  sample_sublist_and_spacing [((0:ℝ), (2:ℝ))] 7 (by simp) (by norm_num)

/-! ## Deduplication lemmas -/

/-- Deduplication picks a subsequence of its input (order preserved). -/
lemma dedupGo_sublist (seen : List String) (l : List DetourOpp) :
    List.Sublist (dedupGo seen l) l := by
  induction l generalizing seen with
  | nil => simp [dedupGo]
  | cons d rest ih =>
    rw [dedupGo]
    split
    · exact List.Sublist.cons d (ih seen)
    · exact List.Sublist.cons₂ d (ih _)

/-- No element with an already-seen key survives deduplication. -/
lemma dedupGo_filter_of_mem (seen : List String) (l : List DetourOpp)
    (k : String) (hk : k ∈ seen) :
    (dedupGo seen l).filter (fun d => detourKey d == k) = [] := by
  induction l generalizing seen with
  | nil => simp [dedupGo]
  | cons d rest ih =>
    rw [dedupGo]
    split
    · exact ih seen hk
    · next hd =>
      rw [List.filter_cons, if_neg (by
        simp only [beq_iff_eq]
        exact fun h => hd (h ▸ hk))]
      exact ih (detourKey d :: seen) (List.mem_cons_of_mem _ hk)

/-- For a key not yet seen, deduplication keeps exactly the first
occurrence carrying that key. -/
lemma dedupGo_filter_of_not_mem (seen : List String) (l : List DetourOpp)
    (k : String) (hk : k ∉ seen) :
    (dedupGo seen l).filter (fun d => detourKey d == k) =
      (l.filter (fun d => detourKey d == k)).take 1 := by
  induction l generalizing seen with
  | nil => simp [dedupGo]
  | cons d rest ih =>
    rw [dedupGo]
    split
    · next hd =>
      have hdk : detourKey d ≠ k := fun h => hk (h ▸ hd)
      rw [List.filter_cons, if_neg (by simpa using hdk)]
      exact ih seen hk
    · next hd =>
      by_cases hdk : detourKey d = k
      · subst hdk
        rw [List.filter_cons, if_pos (by simp), List.filter_cons,
          if_pos (by simp)]
        rw [dedupGo_filter_of_mem _ _ _ (List.mem_cons_self _ _)]
        simp
      · rw [List.filter_cons, if_neg (by simpa using hdk),
          List.filter_cons, if_neg (by simpa using hdk)]
        exact ih (detourKey d :: seen)
          (by simpa using ⟨fun h => hdk h.symm, hk⟩)

/-- Deduplication output: pairwise-distinct keys, none of them already
seen. -/
lemma dedupGo_keys_pairwise (seen : List String) (l : List DetourOpp) :
    (dedupGo seen l).Pairwise (fun d1 d2 => detourKey d1 ≠ detourKey d2) ∧
      ∀ d ∈ dedupGo seen l, detourKey d ∉ seen := by
  induction l generalizing seen with
  | nil => simp [dedupGo]
  | cons d rest ih =>
    rw [dedupGo]
    split
    · exact ih seen
    · next hd =>
      obtain ⟨hp, hs⟩ := ih (detourKey d :: seen)
      refine ⟨List.Pairwise.cons ?_ hp, ?_⟩
      · intro d2 hd2 heq
        exact hs d2 hd2 (heq ▸ List.mem_cons_self _ _)
      · intro d2 hd2m
        rcases List.mem_cons.mp hd2m with h | h
        · exact h ▸ hd
        · exact fun hmem => hs d2 h (List.mem_cons_of_mem _ hmem)

/-- **C7.**  The analyzer's global deduplication keyed by
`"{kind}_{id}"` retains, for each key, exactly the first occurrence in
sample order (the filter of the output by any key is the one-element
truncation of the filter of the input), preserves the encounter order
(subsequence), gives distinct keys pairwise, and hence lists every retained
opportunity exactly once (no duplicates). -/
theorem dedup_keeps_first_occurrence (l : List DetourOpp) (k : String) :
    (dedupDetours l).filter (fun d => detourKey d == k) =
      (l.filter (fun d => detourKey d == k)).take 1 ∧
    List.Sublist (dedupDetours l) l ∧
    (dedupDetours l).Pairwise (fun d1 d2 => detourKey d1 ≠ detourKey d2) ∧
    (dedupDetours l).Nodup :=
  ⟨dedupGo_filter_of_not_mem [] l k (by simp),
   dedupGo_sublist [] l,
   (dedupGo_keys_pairwise [] l).1,
   List.Pairwise.imp (fun h heq => h (congrArg detourKey heq))
     (dedupGo_keys_pairwise [] l).1⟩

/-! ## C1: the saved report loses all but the last sampling point -/

/-- A two-point route (equator, 0° and 1° longitude, about 111 km apart)
sampled at 200 km spacing: the distance pass keeps nothing, and the final
coordinate is appended, giving exactly two sample points. -/
lemma c1_sample_eval :
    sample_route_coordinates [((0:ℝ), (0:ℝ)), ((0:ℝ), (1:ℝ))] 200000 =
      [((0:ℝ), (0:ℝ)), ((0:ℝ), (1:ℝ))] := by
  have f1 : ¬(haversine_distance ((0:ℝ), (0:ℝ)) ((0:ℝ), (1:ℝ)) * 1000 ≥ 200000) := by
    rw [haversine_equator_le 0 1 (by norm_num) (by norm_num)]
    have := Real.pi_lt_d2
    push_neg
    nlinarith
  have haux : sampleAux 200000 ((0:ℝ), (0:ℝ)) [((0:ℝ), (1:ℝ))] = [] := by
    rw [sampleAux, if_neg f1, sampleAux]
  rw [show [((0:ℝ), (0:ℝ)), ((0:ℝ), (1:ℝ))] =
    ((0:ℝ), (0:ℝ)) :: [((0:ℝ), (1:ℝ))] from rfl]
  rw [sample_route_coordinates]
  rw [haux]
  rw [if_neg (by
    intro hmem
    rw [List.mem_singleton, Prod.ext_iff] at hmem
    norm_num at hmem)]
  rfl

/-- **C1.**  With a geographic-data service returning zero features at every
sample point, the analysis of the two-sample-point route has
`detour_summary.total_detours = 0` and two route segments (ids 1 and 2, each
with `detour_count = 0`) — but the saved report's `sampling_points` list has
length 1, not one entry per sample point: the source appends `segment_info`
outside the per-segment loop (`src/route_agent.py` line 640), so only the
last sampling point is saved, contradicting the claim (and the function's own
docstring and prints). -/
theorem saved_report_drops_sampling_points :
    (analyze_route (fun _ => []) [((0:ℝ), (0:ℝ)), ((0:ℝ), (1:ℝ))] 200000).map
      (fun a =>
        (a.detour_summary.total_detours,
         a.route_segments.map (fun seg => (seg.segment_id, seg.detour_count)),
         (savedSamplingPoints a.route_segments).map List.length)) =
    some (0, [(1, 0), (2, 0)], some 1) := by
  rw [analyze_route]
  rw [c1_sample_eval]
  rfl

/-! ## C2: point-amenity classification follows tag order, not priority -/

/-- The classification loop equals "first tag whose key is amenity, shop or
tourism, in tag-dictionary order". -/
lemma classifyTags_eq_find? (tags : List (String × String)) :
    classifyTags tags =
      match tags.find? (fun kv =>
          kv.1 == "amenity" || kv.1 == "shop" || kv.1 == "tourism") with
      | some kv => (kv.1 ++ "=" ++ kv.2, kv.1)
      | none => ("unknown", "other") := by
  induction tags with
  | nil => rfl
  | cons kv rest ih =>
    rcases kv with ⟨k, v⟩
    by_cases hk : k ∈ ["amenity", "shop", "tourism"]
    · rw [classifyTags, if_pos hk,
        List.find?_cons_of_pos _ (by simpa [or_assoc] using hk)]
    · rw [classifyTags, if_neg hk,
        List.find?_cons_of_neg _ (by simpa [and_assoc] using hk)]
      exact ih

/-- **C2, counterexample.**  A node whose tag dictionary lists `shop=bakery`
before `amenity=cafe` is classified with category `shop` and type
`shop=bakery` — not, as the claim states, always `amenity` / `amenity=cafe`:
the source iterates `tags.items()` and keeps the first key among
{amenity, shop, tourism} in *tag order*, not in priority order. -/
theorem extract_category_counterexample :
    (extract_amenity_info
        ⟨1, some 0, some 0, [("shop", "bakery"), ("amenity", "cafe")]⟩
        0 0).map (fun a => (a.category, a.type)) =
      some ("shop", "shop=bakery") ∧
    (some ("shop", "shop=bakery") : Option (String × String)) ≠
      some ("amenity", "amenity=cafe") := by
  refine ⟨rfl, by decide⟩

/-- **C2, amended.**  For every raw point feature with valid coordinates, the
extractor classifies by the *first tag in the feature's tag order* whose key
is one of {amenity, shop, tourism} (type `key=value`, category `key`;
`unknown`/`other` when no such tag exists).  The order of the keys in the
source's priority list is irrelevant; the order of the tags on the feature
decides. -/
theorem extract_category_amended (node : OSMNode) (route_lat route_lon : ℝ)
    (la lo : ℝ) (hla : node.lat = some la) (hlo : node.lon = some lo) :
    (extract_amenity_info node route_lat route_lon).map
      (fun a => (a.type, a.category)) =
    some (match node.tags.find? (fun kv =>
        kv.1 == "amenity" || kv.1 == "shop" || kv.1 == "tourism") with
      | some kv => (kv.1 ++ "=" ++ kv.2, kv.1)
      | none => ("unknown", "other")) := by
  rcases node with ⟨nid, nlat, nlon, tags⟩
  simp only at hla hlo
  subst hla
  subst hlo
  rw [extract_amenity_info]
  rw [Option.map_some']
  rw [← classifyTags_eq_find?]

/-- Witness for `extract_category_amended` on a node with a single
`tourism=museum` tag. -/
theorem extract_category_amended_witness :
    (extract_amenity_info ⟨2, some 0, some 0, [("tourism", "museum")]⟩
        0 0).map (fun a => (a.type, a.category)) =
      some ("tourism=museum", "tourism") := by
  have h := extract_category_amended
    ⟨2, some 0, some 0, [("tourism", "museum")]⟩ 0 0 0 0 rfl rfl
  exact h

/-! ## C8: reports without `sampling_points` pass through unchanged -/

/-- **C8.**  Both summarization filters return their input unchanged (no
exception; the very same report value) when the report lacks the
`sampling_points` key. -/
theorem missing_sampling_points_unchanged (r : QReport) (needs : List String)
    (h : r.sampling_points = none) :
    filter_and_summarize_amenities r = .unchanged r ∧
    filter_amenities_by_user_needs r needs = .unchanged r :=
  ⟨by rw [filter_and_summarize_amenities, h],
   by rw [filter_amenities_by_user_needs, h]⟩

/-- A report without the `sampling_points` key. -/
def c8report : QReport :=
  { route_info := ⟨0, 0, 0, (0, 0), (0, 0)⟩
    analysis_date := ""
    detour_summary := ⟨0, 0, 0⟩
    sampling_points := none }

/-- Witness for `missing_sampling_points_unchanged`. -/
theorem missing_sampling_points_unchanged_witness :
    filter_and_summarize_amenities c8report = .unchanged c8report ∧
    filter_amenities_by_user_needs c8report ["water"] = .unchanged c8report :=
  missing_sampling_points_unchanged c8report ["water"] rfl

/-! ## C5: the 250 m amenity — general filter excludes, needs filter keeps -/

/-- A report with a single sampling point holding a single amenity. -/
def singlePointReport (a : QAmenity) : QReport :=
  { route_info := ⟨2, 1, 0, (0, 0), (0, 0)⟩
    analysis_date := ""
    detour_summary := ⟨1, 1, 0⟩
    sampling_points := some [⟨1, (0, 0), 1, some ⟨some [a], some []⟩⟩] }

/-- **C5.**  An amenity at exactly 250 m that satisfies the filters' other
keep-conditions (named, matching a target category of the requested needs,
not a skip type) is excluded by the general summarization filter (its cap is
a strict `> 200` test) but kept by the needs filter invoked with a non-empty
needs list (cap 250, applied inclusively): on a single-point report the
general filter reports zero relevant amenities and no locations, while the
needs filter reports exactly this amenity. -/
theorem distance_250_general_excludes_needs_includes (a : QAmenity)
    (needs : List String)
    (hdist : a.distance_from_route_m = 250)
    (hneeds : needs ≠ [])
    (hmatch : (targetCategoriesFor needs).any
      (fun cat => pyIn cat (pyLower a.type)) = true)
    (hnamed : pyStartsWith a.name "Unnamed" = false)
    (hskip : skip_types.any (fun sk => pyIn sk a.type) = false) :
    filter_and_summarize_amenities (singlePointReport a) =
      .summarized ⟨⟨2, 1, 0, (0, 0), (0, 0)⟩, 0, [],
        "Found 0 relevant amenities along the route"⟩ ∧
    filter_amenities_by_user_needs (singlePointReport a) needs =
      .summarized ⟨⟨2, 1, 0, (0, 0), (0, 0)⟩, needs,
        targetCategoriesFor needs, 1,
        [⟨(0, 0), [(a.category, [toFilteredNeeds a])], 1⟩],
        "Found 1 relevant amenities for: " ++
          String.intercalate ", " needs⟩ := by
  have hkg : keepGeneral a = false := by
    rw [keepGeneral, hnamed]
    simp [hskip, hdist]
    norm_num
  have hkn : keepNeeds (targetCategoriesFor needs) 250 a = true := by
    rw [keepNeeds]
    simp [hmatch, hdist, hnamed]
  have hni : needs.isEmpty = false := by
    cases needs with
    | nil => exact absurd rfl hneeds
    | cons x xs => rfl
  constructor
  · rw [filter_and_summarize_amenities]
    simp only [singlePointReport]
    simp [summarizeGeneralPoint, hkg]
    rfl
  · rw [filter_amenities_by_user_needs]
    simp only [singlePointReport, hni]
    simp [summarizeNeedsPoint, hkn, hni, groupByCategory, addToGroups,
      toFilteredNeeds]
    rfl

/-- The amenity used to witness the 250 m boundary behaviour. -/
def c5amenity : QAmenity :=
  ⟨"Blue Bottle", "amenity=cafe", "amenity", "", "", 250, (0, 0), []⟩

/-- Witness for `distance_250_general_excludes_needs_includes` at a named
cafe 250 m from the route, with needs `["coffee"]`. -/
theorem distance_250_boundary_witness :
    c5amenity.distance_from_route_m = 250 ∧
    filter_and_summarize_amenities (singlePointReport c5amenity) =
      .summarized ⟨⟨2, 1, 0, (0, 0), (0, 0)⟩, 0, [],
        "Found 0 relevant amenities along the route"⟩ ∧
    filter_amenities_by_user_needs (singlePointReport c5amenity) ["coffee"] =
      .summarized ⟨⟨2, 1, 0, (0, 0), (0, 0)⟩, ["coffee"],
        targetCategoriesFor ["coffee"], 1,
        [⟨(0, 0), [(c5amenity.category, [toFilteredNeeds c5amenity])], 1⟩],
        "Found 1 relevant amenities for: " ++
          String.intercalate ", " ["coffee"]⟩ := by
  have h := distance_250_general_excludes_needs_includes c5amenity ["coffee"]
    rfl (by decide) (by decide) (by decide) (by decide)
  exact ⟨rfl, h.1, h.2⟩

/-! ## C6: needs mapping -/

/-- Membership after one dictionary insertion: the element comes from an
existing bucket or is the inserted one. -/
lemma mem_addToGroups {α : Type} (gs : List (String × List α)) (cat : String)
    (x : α) (g : String × List α) (a : α)
    (hg : g ∈ addToGroups gs cat x) (ha : a ∈ g.2) :
    (∃ g0 ∈ gs, a ∈ g0.2) ∨ a = x := by
  induction gs with
  | nil =>
    rw [addToGroups] at hg
    rcases List.mem_singleton.mp hg with rfl
    exact Or.inr (List.mem_singleton.mp ha)
  | cons p rest ih =>
    rcases p with ⟨c, l⟩
    rw [addToGroups] at hg
    split at hg
    · rcases List.mem_cons.mp hg with rfl | htail
      · rcases List.mem_append.mp ha with hl | hx
        · exact Or.inl ⟨(c, l), List.mem_cons_self _ _, hl⟩
        · exact Or.inr (List.mem_singleton.mp hx)
      · exact Or.inl ⟨g, List.mem_cons_of_mem _ htail, ha⟩
    · rcases List.mem_cons.mp hg with rfl | htail
      · exact Or.inl ⟨(c, l), List.mem_cons_self _ _, ha⟩
      · rcases ih htail with ⟨g0, hg0, ha0⟩ | hax
        · exact Or.inl ⟨g0, List.mem_cons_of_mem _ hg0, ha0⟩
        · exact Or.inr hax

/-- Membership in the folded category dictionary comes from the seed
dictionary or from the folded list. -/
lemma mem_groupFold {α : Type} (category : α → String) (l : List α)
    (gs0 : List (String × List α)) (g : String × List α) (a : α)
    (hg : g ∈ l.foldl (fun gs b => addToGroups gs (category b) b) gs0)
    (ha : a ∈ g.2) :
    (∃ g0 ∈ gs0, a ∈ g0.2) ∨ a ∈ l := by
  induction l generalizing gs0 with
  | nil => exact Or.inl ⟨g, hg, ha⟩
  | cons x rest ih =>
    rw [List.foldl_cons] at hg
    rcases ih (addToGroups gs0 (category x) x) hg with ⟨g0, hg0, ha0⟩ | hmem
    · rcases mem_addToGroups gs0 (category x) x g0 a hg0 ha0 with h | h
      · exact Or.inl h
      · exact Or.inr (h ▸ List.mem_cons_self _ _)
    · exact Or.inr (List.mem_cons_of_mem _ hmem)

/-- Every element listed in a category bucket of `groupByCategory` is an
element of the grouped list. -/
lemma mem_groupByCategory {α : Type} (category : α → String) (l : List α)
    (g : String × List α) (a : α)
    (hg : g ∈ groupByCategory category l) (ha : a ∈ g.2) : a ∈ l := by
  rcases mem_groupFold category l [] g a hg ha with ⟨g0, hg0, _⟩ | h
  · simp at hg0
  · exact h

/-- An amenity kept by the needs filter matches a target category. -/
lemma keepNeeds_matches (target_categories : List String) (max_distance : ℚ)
    (a : QAmenity) (h : keepNeeds target_categories max_distance a = true) :
    target_categories.any (fun cat => pyIn cat (pyLower a.type)) = true := by
  cases hany : target_categories.any (fun cat => pyIn cat (pyLower a.type))
  · rw [keepNeeds] at h
    simp only [hany] at h
    simp at h
  · rfl

/-- **C6.**  (a) For every report, every amenity surviving the needs filter
with `needs = ["coffee"]` has `"cafe"` in its (lower-cased) type string; (b)
with `needs = []` the filter selects against the fixed default category set,
not an empty target set: the computed target is that set, and the output
echoes it in `target_categories`. -/
theorem needs_filter_coffee_and_default :
    (∀ (r : QReport) (s : NSummary),
      filter_amenities_by_user_needs r ["coffee"] = .summarized s →
      ∀ pt ∈ s.key_amenity_locations, ∀ g ∈ pt.amenity_summary,
        ∀ a ∈ g.2, pyIn "cafe" (pyLower a.type) = true) ∧
    targetCategoriesFor [] = default_categories ∧
    (∀ (r : QReport) (s : NSummary),
      filter_amenities_by_user_needs r [] = .summarized s →
      s.target_categories = default_categories) := by
  have htc : targetCategoriesFor ["coffee"] = ["cafe"] := by decide
  refine ⟨?_, by decide, ?_⟩
  · intro r s hres pt hpt g hg a ha
    cases hsp : r.sampling_points with
    | none =>
      simp [filter_amenities_by_user_needs, hsp] at hres
    | some points =>
      simp only [filter_amenities_by_user_needs, hsp,
        NeedsResult.summarized.injEq] at hres
      subst hres
      have hmd : (if (["coffee"] : List String).isEmpty = true
          then (150 : ℚ) else 250) = 250 := rfl
      have hpt2 := (List.take_sublist 5 _).subset hpt
      rw [List.mem_filterMap] at hpt2
      obtain ⟨p, _hp, hsum⟩ := hpt2
      rw [hmd] at hsum
      cases hpd : p.detours with
      | none => simp [summarizeNeedsPoint, hpd] at hsum
      | some d =>
        cases hda : d.amenities with
        | none => simp [summarizeNeedsPoint, hpd, hda] at hsum
        | some amens =>
          simp only [summarizeNeedsPoint, hpd, hda] at hsum
          split at hsum
          · exact absurd hsum (by simp)
          · rw [Option.some.injEq] at hsum
            subst hsum
            have hmem := mem_groupByCategory FAmenityN.category _ g a hg ha
            rw [List.mem_map] at hmem
            obtain ⟨a0, ha0, rfl⟩ := hmem
            rw [List.mem_filter] at ha0
            have hmatch := keepNeeds_matches _ _ a0 ha0.2
            rw [htc] at hmatch
            simp only [List.any_cons, List.any_nil, Bool.or_false] at hmatch
            exact hmatch
  · intro r s hres
    cases hsp : r.sampling_points with
    | none =>
      simp [filter_amenities_by_user_needs, hsp] at hres
    | some points =>
      simp only [filter_amenities_by_user_needs, hsp,
        NeedsResult.summarized.injEq] at hres
      subst hres
      exact (by decide : targetCategoriesFor [] = default_categories)

/-- The amenity used to witness the coffee-needs filter. -/
def c6amenity : QAmenity :=
  ⟨"Corner Cafe", "amenity=cafe", "amenity", "", "", 30, (1, 2), []⟩

/-- The summary the needs filter produces for `singlePointReport c6amenity`
with needs `["coffee"]`. -/
def c6expected : NSummary :=
  ⟨⟨2, 1, 0, (0, 0), (0, 0)⟩, ["coffee"], targetCategoriesFor ["coffee"], 1,
   [⟨(0, 0), [((toFilteredNeeds c6amenity).category,
      [toFilteredNeeds c6amenity])], 1⟩],
   "Found 1 relevant amenities for: " ++ String.intercalate ", " ["coffee"]⟩

/-- Witness for `needs_filter_coffee_and_default` on a one-cafe report. -/
theorem needs_filter_coffee_witness :
    pyIn "cafe" (pyLower (toFilteredNeeds c6amenity).type) = true :=
  needs_filter_coffee_and_default.1 (singlePointReport c6amenity) c6expected
    (by rfl)
    ⟨(0, 0), [((toFilteredNeeds c6amenity).category,
      [toFilteredNeeds c6amenity])], 1⟩
    (List.mem_cons_self _ _)
    ((toFilteredNeeds c6amenity).category, [toFilteredNeeds c6amenity])
    (List.mem_cons_self _ _)
    (toFilteredNeeds c6amenity)
    (List.mem_cons_self _ _)
